import Mathlib

/-!
Verification of the retrieval / guardrail core of the longevity research
portal RAG pipeline.  The Python modules `src/rag/guardrails.py`,
`src/rag/retriever.py`, `src/rag/reranker.py` and `src/rag/pipeline.py`
are shallowly embedded below: Python strings are Lean `String`s (operated
on through their character lists), Python floats are `ℚ` (the only float
comparison whose rounding could matter, the 30 percent floor in
`entity_check`, compares an integer character count against `n * 0.3`;
for `0.3` the double-rounded product never crosses an integer, so the
rational model decides that comparison exactly as CPython does), Python
dicts are insertion-ordered association lists, Python sets are
insertion-ordered duplicate-free lists (set iteration order is
unspecified in CPython; no verified property below depends on the order
chosen), and `try/except` around the reranker service call is an
`Option` argument.  The regular expressions of `guardrails.py` are
implemented as explicit backtracking scanners over character lists,
with Python's `\w` modelled for ASCII and Greek letters.
-/

-- ── Character classes ─────────────────────────────────────────────────────────

def isUpperAscii (c : Char) : Bool := 'A' ≤ c && c ≤ 'Z'

def isLowerAscii (c : Char) : Bool := 'a' ≤ c && c ≤ 'z'

def isDigitAscii (c : Char) : Bool := '0' ≤ c && c ≤ '9'

def isGreekUpper (c : Char) : Bool := 0x391 ≤ c.toNat && c.toNat ≤ 0x3A9

def isGreekLower (c : Char) : Bool := 0x3B1 ≤ c.toNat && c.toNat ≤ 0x3C9

/-- Python regex `\w` (letters, digits, underscore), modelled for the ASCII
and Greek ranges the corpus uses. -/
def isWordChar (c : Char) : Bool :=
  isUpperAscii c || isLowerAscii c || isDigitAscii c || c = '_' ||
    isGreekUpper c || isGreekLower c

/-- Python regex `\s` for the ASCII whitespace characters. -/
def isPySpace (c : Char) : Bool :=
  c = ' ' || c = '\t' || c = '\n' || c = '\r' ||
    c = Char.ofNat 0x0b || c = Char.ofNat 0x0c

/-- Python `str.lower` for ASCII and Greek capital letters. -/
def charLower (c : Char) : Char :=
  if isUpperAscii c then Char.ofNat (c.toNat + 32)
  else if isGreekUpper c then Char.ofNat (c.toNat + 32)
  else c

-- ── Python string primitives ──────────────────────────────────────────────────

def pyLower (s : String) : String := String.mk (s.toList.map charLower)

/-- Python substring test `sub in s`. -/
def pyIn (sub s : String) : Bool :=
  s.toList.tails.any (fun t => sub.toList.isPrefixOf t)

/-- Python `s.endswith(suffix)`. -/
def pyEndsWith (s suffix : String) : Bool := suffix.toList.isSuffixOf s.toList

/-- Python `s.strip()` (whitespace from both ends). -/
def pyStrip (s : String) : String :=
  String.mk (((s.toList.dropWhile isPySpace).reverse.dropWhile isPySpace).reverse)

def splitCharAux (sep : Char) : List Char → List Char → List (List Char)
  | acc, [] => [acc.reverse]
  | acc, c :: cs =>
    if c = sep then acc.reverse :: splitCharAux sep [] cs
    else splitCharAux sep (c :: acc) cs

/-- Python `s.split(sep)` for a one-character separator. -/
def pySplitChar (sep : Char) (s : String) : List String :=
  (splitCharAux sep [] s.toList).map String.mk

/-- Python `sep.join(parts)`. -/
def pyJoin (sep : String) (parts : List String) : String :=
  String.mk (List.intercalate sep.toList (parts.map String.toList))

-- ── Python set and dict models ────────────────────────────────────────────────

/-- Python `set.add`: insertion-ordered, duplicate free. -/
def setAdd (s : List String) (x : String) : List String :=
  if x ∈ s then s else s ++ [x]

/-- Python `set(iterable)` over strings. -/
def pySetOfList (l : List String) : List String := l.foldl setAdd []

/-- Python `dict[k] = v`: overwrite in place, new keys appended. -/
def dictSet (m : List (String × α)) (k : String) (v : α) : List (String × α) :=
  if m.any (fun p => p.1 = k) then
    m.map (fun p => if p.1 = k then (k, v) else p)
  else m ++ [(k, v)]

/-- Python `dict.get(k)` as an option. -/
def dictGet? (m : List (String × α)) (k : String) : Option α :=
  (m.find? (fun p => p.1 = k)).map (fun p => p.2)

/-- Python dict built by a loop `for x in l: d[key x] = val x`. -/
def buildDict (key : α → String) (val : α → β) (l : List α) : List (String × β) :=
  l.foldl (fun m x => dictSet m (key x) (val x)) []

-- ── Stable descending sort (Python `sorted(key, reverse=True)`) ───────────────

/-- Insert `x` after every element not strictly below it: the stable position
for a descending sort. -/
def insertDescBy (lt : α → α → Bool) (x : α) : List α → List α
  | [] => [x]
  | y :: ys => if lt y x then x :: y :: ys else y :: insertDescBy lt x ys

/-- Python `sorted(l, key, reverse=True)`: stable, descending in the key
(`lt` is the strict order on sort keys). -/
def pySortDescBy (lt : α → α → Bool) (l : List α) : List α :=
  l.foldl (fun acc x => insertDescBy lt x acc) []

-- ── Data model (src/schemas.py) ───────────────────────────────────────────────

structure Citation where
  source_id : String
  chunk_id : String
  relevant_quote : String := ""
deriving DecidableEq

structure RAGResponse where
  answer : String
  citations : List Citation := []
  confidence : String := "medium"
  evidence_quality : String := ""
  no_evidence : Bool := false
  caveats : List String := []
deriving DecidableEq

structure RetrievedChunk where
  chunk_id : String
  source_id : String
  sectionName : String
  page_start : Int
  page_end : Int
  text : String
  vector_score : ℚ := 0
  bm25_score : ℚ := 0
  combined_score : ℚ := 0
deriving DecidableEq

structure RetrievalResult where
  query : String
  chunks : List RetrievedChunk
  all_candidates : Nat := 0
  above_threshold : Nat := 0
  has_sufficient_evidence : Bool := true
deriving DecidableEq

-- ── Citation verification (guardrails.py 41-77) ───────────────────────────────

/-- `_resolve_chunk_id`: exact match first, then the first retrieved id that
ends with `"__" ++ raw_id` or with `raw_id` (set iteration order modelled as
list order). -/
def _resolve_chunk_id (raw_id : String) (retrieved_ids : List String) :
    Option String :=
  if raw_id ∈ retrieved_ids then some raw_id
  else retrieved_ids.find?
    (fun rid => pyEndsWith rid ("__" ++ raw_id) || pyEndsWith rid raw_id)

/-- One iteration of the `for cite in response.citations` loop: `some` is the
`valid` branch (with the chunk id rewritten), `none` the `removed` branch.
Python's `if resolved:` is falsy both for `None` and for the empty string. -/
def citeKeep (ids : List String) (cite : Citation) : Option Citation :=
  match _resolve_chunk_id cite.chunk_id ids with
  | some r => if r = "" then none else some { cite with chunk_id := r }
  | none => none

/-- Python `repr` of a string (quotes; the corpus ids need no escaping). -/
def pyReprStr (s : String) : String := "\x27" ++ s ++ "\x27"

def pyReprStrList (l : List String) : String :=
  "[" ++ String.intercalate ", " (l.map pyReprStr) ++ "]"

def removedCaveat (removed : List Citation) : String :=
  "Removed " ++ toString removed.length ++ " unverified citation(s): " ++
    pyReprStrList (removed.map (fun c => c.chunk_id))

/-- `verify_citations` (guardrails.py 51-77). -/
def verify_citations (response : RAGResponse) (retrieval : RetrievalResult) :
    RAGResponse :=
  let retrieved_ids := pySetOfList (retrieval.chunks.map (fun c => c.chunk_id))
  let valid := response.citations.filterMap (citeKeep retrieved_ids)
  let removed := response.citations.filter
    (fun c => (citeKeep retrieved_ids c).isNone)
  if removed.length > 0 then
    { response with
      citations := valid,
      caveats := response.caveats ++ [removedCaveat removed],
      confidence :=
        if response.confidence = "high" then "medium" else response.confidence }
  else
    { response with citations := valid }

-- ── Topic presence check (guardrails.py 82-114) ───────────────────────────────

/-- The `_STOP_WORDS` frozenset (duplicates in the source literal kept; only
membership matters). -/
def _STOP_WORDS : List String := [
  "a", "an", "the", "is", "are", "was", "were", "be", "been", "being",
  "have", "has", "had", "do", "does", "did", "will", "would", "shall",
  "should", "may", "might", "can", "could", "must", "about", "above",
  "after", "again", "all", "also", "and", "any", "as", "at", "because",
  "before", "between", "both", "but", "by", "could", "did", "do", "does",
  "doing", "down", "during", "each", "few", "for", "from", "further",
  "get", "got", "he", "her", "here", "hers", "herself", "him", "himself",
  "his", "how", "i", "if", "in", "into", "it", "its", "itself", "just",
  "know", "let", "like", "make", "me", "might", "more", "most", "much",
  "my", "myself", "no", "nor", "not", "now", "of", "off", "on", "once",
  "only", "or", "other", "our", "ours", "ourselves", "out", "over", "own",
  "same", "she", "so", "some", "such", "take", "than", "that", "the",
  "their", "theirs", "them", "themselves", "then", "there", "these",
  "they", "this", "those", "through", "to", "too", "under", "until",
  "up", "us", "very", "we", "what", "when", "where", "which", "while",
  "who", "whom", "why", "with", "you", "your", "yours", "yourself",
  "yourselves", "according", "across", "describe", "described", "does",
  "effect", "find", "findings", "key", "main", "role", "say", "suggest",
  "what", "associated", "evidence", "corpus"]

/-- First character class of the token regex (word start: ASCII
alphanumeric or Greek letter). -/
def isKwStart (c : Char) : Bool :=
  isUpperAscii c || isLowerAscii c || isDigitAscii c ||
    isGreekLower c || isGreekUpper c

/-- Continuation class of the token regex: word character, dash or slash. -/
def isKwCont (c : Char) : Bool := isWordChar c || c = '-' || c = '/'

/-- `re.findall` scan for the token regex: maximal runs, non-overlapping,
left to right.  Each step consumes at least one character, so fuel equal to
the input length always suffices. -/
def kwTokensAux : Nat → List Char → List (List Char)
  | 0, _ => []
  | _ + 1, [] => []
  | fuel + 1, c :: cs =>
    if isKwStart c then
      (c :: cs.takeWhile isKwCont) :: kwTokensAux fuel (cs.dropWhile isKwCont)
    else kwTokensAux fuel cs

def kwTokens (s : String) : List String :=
  (kwTokensAux (s.toList.length + 1) s.toList).map String.mk

/-- `_extract_query_keywords` (guardrails.py 82-91): lower-cased tokens not in
the stop-word set and at least 3 characters long, collected into a set. -/
def _extract_query_keywords (query : String) : List String :=
  (kwTokens query).foldl
    (fun keywords tok =>
      let low := pyLower tok
      if low ∉ _STOP_WORDS ∧ low.length ≥ 3 then setAdd keywords low
      else keywords)
    []

/-- The concatenated lower-cased chunk text `" ".join(c.text.lower() ...)`. -/
def contextLowerOf (chunks : List RetrievedChunk) : String :=
  pyJoin " " (chunks.map (fun c => pyLower c.text))

/-- `topic_presence_check` (guardrails.py 94-114). -/
def topic_presence_check (query : String) (chunks : List RetrievedChunk)
    (min_keyword_hits : Nat := 2) : Bool :=
  let keywords := _extract_query_keywords query
  if keywords = [] then true
  else
    let context_lower := contextLowerOf chunks
    let hits := (keywords.filter (fun kw => pyIn kw context_lower)).length
    let threshold := min min_keyword_hits (max 1 (keywords.length / 3))
    hits ≥ threshold

-- ── Regex scanners for the entity patterns (guardrails.py 120-150) ────────────

def optIsWord : Option Char → Bool
  | none => false
  | some c => isWordChar c

/-- Python `\b`: the two sides disagree on word-char-ness (`none` is the
string edge). -/
def boundaryAt (a b : Option Char) : Bool := optIsWord a != optIsWord b

def lastCharOpt (l : List Char) : Option Char := l.getLast?

/-- All splits of a greedy `p*`, longest first — the backtracking order of a
greedy star. -/
def splitsStar (p : Char → Bool) : List Char → List (List Char × List Char)
  | [] => [([], [])]
  | c :: cs =>
    if p c then
      ((splitsStar p cs).map (fun pr => (c :: pr.1, pr.2))) ++ [([], c :: cs)]
    else [([], c :: cs)]

/-- Generic `finditer` driver: at each position try `matchAt` (given the
previous character for `\b`); on a match emit it and resume after it.  Every
step consumes at least one character, so fuel equal to the input length
always suffices. -/
def reFindAllAux (matchAt : Option Char → List Char → Option (List Char)) :
    Nat → Option Char → List Char → List (List Char)
  | 0, _, _ => []
  | _ + 1, _, [] => []
  | fuel + 1, prev, c :: cs =>
    match matchAt prev (c :: cs) with
    | some m =>
      if m.isEmpty then reFindAllAux matchAt fuel (some c) cs
      else m :: reFindAllAux matchAt fuel (lastCharOpt m) (List.drop (m.length - 1) cs)
    | none => reFindAllAux matchAt fuel (some c) cs

def reFindAll (matchAt : Option Char → List Char → Option (List Char))
    (l : List Char) : List (List Char) :=
  reFindAllAux matchAt (l.length + 1) none l

-- ── `_NUMBER_PATTERN` ─────────────────────────────────────────────────────────

def isUnitSym (c : Char) : Bool :=
  c = '%' || c = Char.ofNat 0x2103 || c = Char.ofNat 0xB0

def isRangeDash (c : Char) : Bool := c = '-' || c = Char.ofNat 0x2013

/-- The options for `\d+[\.\,]?\d*` in greedy order: separator taken first
(the trailing `\d*` is forced maximal because every continuation of the
pattern rejects a digit). -/
def numPrefixes (s : List Char) : List (List Char × List Char) :=
  let d1 := s.takeWhile isDigitAscii
  if d1.isEmpty then []
  else
    let r1 := s.dropWhile isDigitAscii
    let withSep : List (List Char × List Char) :=
      match r1 with
      | c :: r2 =>
        if c = '.' ∨ c = ',' then
          [(d1 ++ c :: r2.takeWhile isDigitAscii, r2.dropWhile isDigitAscii)]
        else []
      | [] => []
    withSep ++ [(d1, r1)]

/-- Alternative 1: `\b\d+[\.\,]?\d*\s*[%℃°]`. -/
def matchNum1 (s : List Char) : Option (List Char) :=
  (numPrefixes s).findSome? (fun pr =>
    let sp := pr.2.takeWhile isPySpace
    match pr.2.dropWhile isPySpace with
    | u :: _ => if isUnitSym u then some (pr.1 ++ sp ++ [u]) else none
    | [] => none)

def unitWords : List (List Char) :=
  (["mg", "kg", "ml", "min", "hour", "week", "year", "day", "month"]).map
    String.toList

/-- Alternative 2: `\b\d+[\.\,]?\d*\s*(?:mg|kg|...)\b`, case-insensitive on
the unit word, alternatives in source order. -/
def matchNum2 (s : List Char) : Option (List Char) :=
  (numPrefixes s).findSome? (fun pr =>
    let sp := pr.2.takeWhile isPySpace
    let r := pr.2.dropWhile isPySpace
    unitWords.findSome? (fun w =>
      if (r.take w.length).map charLower = w ∧
          boundaryAt (lastCharOpt w) (r.drop w.length).head? then
        some (pr.1 ++ sp ++ r.take w.length)
      else none))

/-- Alternative 3: `\b\d+[\.\,]?\d*[-–]\d+[\.\,]?\d*\b`. -/
def matchNum3 (s : List Char) : Option (List Char) :=
  (numPrefixes s).findSome? (fun pr1 =>
    match pr1.2 with
    | d :: r2 =>
      if isRangeDash d then
        (numPrefixes r2).findSome? (fun pr2 =>
          let m := pr1.1 ++ d :: pr2.1
          if boundaryAt (lastCharOpt m) pr2.2.head? then some m else none)
      else none
    | [] => none)

/-- `_NUMBER_PATTERN` at one position: the three alternatives in order (all
start with `\b` before a digit). -/
def matchNumber (prev : Option Char) (s : List Char) : Option (List Char) :=
  if boundaryAt prev s.head? then
    matchNum1 s <|> matchNum2 s <|> matchNum3 s
  else none

-- ── `_GENE_PATTERN`: `\b[A-Z][A-Z0-9]{1,}[-/]?[A-Z0-9α-ω]*\b` ─────────────────

def isUpperDigit (c : Char) : Bool := isUpperAscii c || isDigitAscii c

def isGeneTail (c : Char) : Bool :=
  isUpperAscii c || isDigitAscii c || isGreekLower c

def geneEnd (m : List Char) (rest : List Char) : Bool :=
  boundaryAt (lastCharOpt m) rest.head?

/-- `_GENE_PATTERN` at one position, with the regex backtracking order:
longest one-or-more `[A-Z0-9]` run first, the optional dash-or-slash taken
first, longest `[A-Z0-9α-ω]*` first, then the final `\b` check. -/
def matchGene (prev : Option Char) (s : List Char) : Option (List Char) :=
  if boundaryAt prev s.head? then
    match s with
    | c :: d :: ds =>
      if isUpperAscii c ∧ isUpperDigit d then
        (splitsStar isUpperDigit ds).findSome? (fun pr1 =>
          let core := c :: d :: pr1.1
          let withDash : Option (List Char) :=
            match pr1.2 with
            | e :: es =>
              if e = '-' ∨ e = '/' then
                (splitsStar isGeneTail es).findSome? (fun pr2 =>
                  let m := core ++ e :: pr2.1
                  if geneEnd m pr2.2 then some m else none)
              else none
            | [] => none
          withDash <|>
            (splitsStar isGeneTail pr1.2).findSome? (fun pr2 =>
              let m := core ++ pr2.1
              if geneEnd m pr2.2 then some m else none))
      else none
    | _ => none
  else none

-- ── `_PROPER_NOUN_PATTERN`: `\b(?:[A-Z][a-z]+(?:\s+[A-Z][a-z]+)+)\b` ──────────

/-- `[A-Z][a-z]+` with the trailing `[a-z]+` maximal (shrinking it always
leaves a word character on both sides of the required follow-up, so the
greedy length is forced). -/
def parsePnWord : List Char → Option (List Char × List Char)
  | c :: cs =>
    if isUpperAscii c then
      let lows := cs.takeWhile isLowerAscii
      if lows.isEmpty then none
      else some (c :: lows, cs.dropWhile isLowerAscii)
    else none
  | [] => none

/-- Cumulative matches of `(?:\s+[A-Z][a-z]+)+` after `acc`, one entry per
group count, in increasing order.  Each group consumes at least two
characters, so fuel equal to the input length suffices. -/
def pnCumul : Nat → List Char → List Char → List (List Char × List Char)
  | 0, _, _ => []
  | fuel + 1, acc, s =>
    let sp := s.takeWhile isPySpace
    if sp.isEmpty then []
    else
      match parsePnWord (s.dropWhile isPySpace) with
      | none => []
      | some pr =>
        let acc2 := acc ++ sp ++ pr.1
        (acc2, pr.2) :: pnCumul fuel acc2 pr.2

/-- `_PROPER_NOUN_PATTERN` at one position: greedy group count, backtracking
down to one group, each candidate checked against the final `\b`. -/
def matchPn (prev : Option Char) (s : List Char) : Option (List Char) :=
  if boundaryAt prev s.head? then
    match parsePnWord s with
    | none => none
    | some pr =>
      ((pnCumul (s.length + 1) pr.1 pr.2).reverse).findSome? (fun pr2 =>
        if boundaryAt (lastCharOpt pr2.1) pr2.2.head? then some pr2.1 else none)
  else none

-- ── `_extract_entities` and `entity_check` (guardrails.py 136-223) ────────────

def geneExclusions : List String :=
  ["NOT", "AND", "BUT", "THE", "FOR", "ARE", "WAS", "HAS", "HAD", "ALL",
   "CAN", "MAY", "USE", "SET"]

/-- `_extract_entities` (guardrails.py 136-150): number, gene and proper-noun
matches collected into a set (insertion order). -/
def _extract_entities (text : String) : List String :=
  let l := text.toList
  let s0 := (reFindAll matchNumber l).foldl
    (fun s m => setAdd s (pyStrip (String.mk m))) []
  let s1 := (reFindAll matchGene l).foldl
    (fun s m =>
      let val := pyStrip (String.mk m)
      if val.length ≥ 3 ∧ val ∉ geneExclusions then setAdd s val else s)
    s0
  (reFindAll matchPn l).foldl (fun s m => setAdd s (pyStrip (String.mk m))) s1

/-- `re.split(r"(?<=[.!?])\s+", line)`: a separator is a maximal whitespace
run whose preceding character is `.`, `!` or `?`.  Fuel equal to the input
length suffices (every step consumes at least one character). -/
def sentenceSplitAux : Nat → Option Char → List Char → List Char →
    List (List Char)
  | _, _, acc, [] => [acc.reverse]
  | 0, _, acc, rest => [acc.reverse ++ rest]
  | fuel + 1, prev, acc, c :: cs =>
    if isPySpace c ∧ (prev = some '.' ∨ prev = some '!' ∨ prev = some '?') then
      acc.reverse :: sentenceSplitAux fuel (some ' ') [] (cs.dropWhile isPySpace)
    else sentenceSplitAux fuel (some c) (c :: acc) cs

def sentenceSplit (line : String) : List String :=
  (sentenceSplitAux (line.toList.length + 1) none [] line.toList).map String.mk

/-- The `sentence_ungrounded` test: some ungrounded entity occurs in the
sentence, case-sensitively or case-insensitively. -/
def sentenceUngrounded (ungrounded : List String) (sentence : String) : Bool :=
  ungrounded.any (fun ent =>
    pyIn ent sentence || pyIn (pyLower ent) (pyLower sentence))

/-- The per-line loop of `entity_check` (guardrails.py 185-201): returns
`(stripped_sentences, kept_lines)`. -/
def entityStrip (ungrounded : List String) (answer : String) :
    List String × List String :=
  (pySplitChar '\n' answer).foldl
    (fun st line =>
      let sentences := sentenceSplit line
      let strippedHere := (sentences.filter
        (fun s => sentenceUngrounded ungrounded s)).map pyStrip
      let keptInLine := sentences.filter
        (fun s => ¬ sentenceUngrounded ungrounded s)
      if keptInLine ≠ [] then
        (st.1 ++ strippedHere, st.2 ++ [pyJoin " " keptInLine])
      else if pyStrip line = "" then (st.1 ++ strippedHere, st.2 ++ [""])
      else (st.1 ++ strippedHere, st.2))
    ([], [])

/-- The set of answer entities absent from the context (case-sensitive and
case-insensitive checks both failing). -/
def ungroundedOf (answer_entities : List String) (context_text : String) :
    List String :=
  answer_entities.filter (fun ent =>
    ¬ pyIn ent context_text ∧ ¬ pyIn (pyLower ent) (pyLower context_text))

def sortedStrings (l : List String) : List String :=
  (pySortDescBy (fun a b : String => decide (b < a)) l).reverse

def entityGuardCaveat (stripped : List String) (ungrounded : List String) :
    String :=
  "Entity guard: removed " ++ toString stripped.length ++
    " sentence(s) containing terms not found in context: " ++
    pyReprStrList ((sortedStrings ungrounded).take 5)

def entityFlagCaveat (ungrounded : List String) : String :=
  "Entity check: " ++ toString ungrounded.length ++
    " term(s) in the answer may not appear in the retrieved context: " ++
    pyReprStrList ((sortedStrings ungrounded).take 5)

/-- `entity_check` (guardrails.py 153-223). -/
def entity_check (response : RAGResponse) (context_text : String) :
    RAGResponse :=
  if response.no_evidence then response
  else
    let answer_entities := _extract_entities response.answer
    if answer_entities = [] then response
    else
      let ungrounded := ungroundedOf answer_entities context_text
      if ungrounded = [] then response
      else
        let st := entityStrip ungrounded response.answer
        if st.1 = [] then response
        else
          let cleaned_answer := pyStrip (pyJoin "\n" st.2)
          let newConf :=
            if response.confidence = "high" then "medium"
            else response.confidence
          if (cleaned_answer.length : ℚ) ≥
              (response.answer.length : ℚ) * (3 / 10) then
            { response with
              answer := cleaned_answer,
              caveats := response.caveats ++ [entityGuardCaveat st.1 ungrounded],
              confidence := newConf }
          else
            { response with
              caveats := response.caveats ++ [entityFlagCaveat ungrounded],
              confidence := newConf }

-- ── Hybrid retrieval with score fusion (retriever.py 55-119) ──────────────────

/-- A LangChain document as the retriever reads it: the `chunk_id` metadata
entry, the `.get(..., default)` results for the other metadata fields, and
the page content. -/
structure Doc where
  chunk_id : String
  source_id : String := ""
  sectionName : String := ""
  page_start : Int := 0
  page_end : Int := 0
  text : String := ""
deriving DecidableEq

/-- `enumerate` starting at `r`. -/
def enumFrom (r : Nat) : List α → List (Nat × α)
  | [] => []
  | x :: xs => (r, x) :: enumFrom (r + 1) xs

/-- Step 1 of `retrieve`: `vector_scored[cid] = (doc, 1 / (1 + dist))`. -/
def buildVectorScored (vector_results : List (Doc × ℚ)) :
    List (String × (Doc × ℚ)) :=
  buildDict (fun p => p.1.chunk_id) (fun p => (p.1, 1 / (1 + p.2)))
    vector_results

/-- Step 2 of `retrieve`: `bm25_scored[cid] = (doc, 1 / (rank + 1))`. -/
def buildBm25Scored (bm25_results : List Doc) : List (String × (Doc × ℚ)) :=
  buildDict (fun p => p.2.chunk_id) (fun p => (p.2, 1 / ((p.1 : ℚ) + 1)))
    (enumFrom 0 bm25_results)

def mkFusedChunk (vw bw : ℚ) (cid : String) (doc : Doc) (vs bs : ℚ) :
    RetrievedChunk :=
  { chunk_id := cid
    source_id := doc.source_id
    sectionName := doc.sectionName
    page_start := doc.page_start
    page_end := doc.page_end
    text := doc.text
    vector_score := vs
    bm25_score := bs
    combined_score := vw * vs + bw * bs }

/-- Step 3 of `retrieve` (retriever.py 86-104): candidates are the union of
both key sets; the missing score defaults to 0 and the document comes from
the semantic entry when present (`doc = vec_doc or bm25_doc`).  The
impossible both-absent case yields no candidate. -/
def fuseCandidates (vw bw : ℚ) (vector_results : List (Doc × ℚ))
    (bm25_results : List Doc) : List RetrievedChunk :=
  let vector_scored := buildVectorScored vector_results
  let bm25_scored := buildBm25Scored bm25_results
  let all_ids := pySetOfList
    (vector_scored.map (fun p => p.1) ++ bm25_scored.map (fun p => p.1))
  all_ids.filterMap (fun cid =>
    match dictGet? vector_scored cid, dictGet? bm25_scored cid with
    | some pv, ob =>
      some (mkFusedChunk vw bw cid pv.1 pv.2 ((ob.map (fun p => p.2)).getD 0))
    | none, some pb => some (mkFusedChunk vw bw cid pb.1 0 pb.2)
    | none, none => none)

/-- `HybridRetriever.retrieve` (retriever.py 55-119) with the two index
calls supplied as inputs: fuse, stable-sort by `combined_score` descending,
apply the similarity floor to `vector_score`, and take the top `k`. -/
def retrieve (vw bw : ℚ) (k : Nat) (similarity_threshold : ℚ) (query : String)
    (vector_results : List (Doc × ℚ)) (bm25_results : List Doc) :
    RetrievalResult :=
  let fused := fuseCandidates vw bw vector_results bm25_results
  let fusedSorted := pySortDescBy
    (fun a b => decide (a.combined_score < b.combined_score)) fused
  let above := fusedSorted.filter
    (fun c => similarity_threshold ≤ c.vector_score)
  let final := above.take k
  { query := query
    chunks := final
    all_candidates := fused.length
    above_threshold := above.length
    has_sufficient_evidence := decide (final.length > 0) }

-- ── LLM reranker (reranker.py 58-89) ──────────────────────────────────────────

structure ChunkScore where
  chunk_id : String
  relevance : Int
deriving DecidableEq

/-- `score_map = {s.chunk_id: s.relevance for s in result.scores}`. -/
def buildScoreMap (scores : List ChunkScore) : List (String × Int) :=
  buildDict (fun s => s.chunk_id) (fun s => s.relevance) scores

/-- `score_map.get(c.chunk_id, 0)`. -/
def relevanceOf (score_map : List (String × Int)) (c : RetrievedChunk) : Int :=
  (dictGet? score_map c.chunk_id).getD 0

/-- Strict comparison on the sort key `(relevance, combined_score)`. -/
def rerankKeyLt (score_map : List (String × Int))
    (a b : RetrievedChunk) : Bool :=
  relevanceOf score_map a < relevanceOf score_map b ||
    (relevanceOf score_map a = relevanceOf score_map b &&
      a.combined_score < b.combined_score)

/-- `LLMReranker.rerank` (reranker.py 58-89).  The scoring service call is
an input: `none` models the call raising (or its structured output failing
to parse), which the `except` clause turns into the unchanged list.  With
one or zero candidates the function returns before calling the service. -/
def rerank (serviceResult : Option (List ChunkScore)) (query : String)
    (chunks : List RetrievedChunk) : List RetrievedChunk :=
  if chunks.length ≤ 1 then chunks
  else
    match serviceResult with
    | none => chunks
    | some scores =>
      let score_map := buildScoreMap scores
      pySortDescBy (rerankKeyLt score_map) chunks

-- ── Chunk expansion (retriever.py 123-179) ────────────────────────────────────

/-- One stored chunk as read from `chunks.jsonl`; `none` fields model JSON
keys the `adj_data.get(...)` calls would find missing. -/
structure ChunkData where
  source_id : Option String := none
  sectionName : Option String := none
  page_start : Option Int := none
  page_end : Option Int := none
  text : Option String := none
deriving DecidableEq

/-- Last index at which `sep` occurs in `l` (Python `str.rfind`). -/
def lastSplitIdx (sep l : List Char) : Option Nat :=
  (List.range (l.length + 1)).reverse.find? (fun i => sep.isPrefixOf (l.drop i))

/-- Split at the last occurrence of `sep`, if any. -/
def rsplitLast (sep : String) (s : String) : Option (String × String) :=
  (lastSplitIdx sep.toList s.toList).map (fun i =>
    (String.mk (s.toList.take i),
     String.mk (s.toList.drop (i + sep.toList.length))))

/-- Python `s.rsplit(sep, 2)`: at most two splits, scanning from the right,
non-overlapping. -/
def pyRsplit2 (sep : String) (s : String) : List String :=
  match rsplitLast sep s with
  | none => [s]
  | some pr =>
    match rsplitLast sep pr.1 with
    | none => [pr.1, pr.2]
    | some pr2 => [pr2.1, pr2.2, pr.2]

def digitsToNat (ds : List Char) : Nat :=
  ds.foldl (fun n c => n * 10 + (c.toNat - 48)) 0

/-- Python `int(str)` for the decimal forms the chunk ids use (optional
sign, ASCII digits, surrounding whitespace). -/
def pyParseInt (s : String) : Option Int :=
  match (pyStrip s).toList with
  | '-' :: ds =>
    if ds ≠ [] ∧ ds.all isDigitAscii then some (-(digitsToNat ds : Int))
    else none
  | '+' :: ds =>
    if ds ≠ [] ∧ ds.all isDigitAscii then some (digitsToNat ds : Int) else none
  | ds =>
    if ds ≠ [] ∧ ds.all isDigitAscii then some (digitsToNat ds : Int) else none

/-- `_parse_chunk_id` (retriever.py 123-132). -/
def _parse_chunk_id (chunk_id : String) : Option (String × String × Int) :=
  match pyRsplit2 "__" chunk_id with
  | [a, b, c] => (pyParseInt c).map (fun n => (a, b, n))
  | _ => none

/-- Python `f-string` format `{n:03d}`: zero-padded to total width 3, the
sign included in the width. -/
def pyFormat03d (n : Int) : String :=
  let digits := Nat.repr n.natAbs
  if n < 0 then
    "-" ++ (if digits.length ≥ 2 then digits
            else String.mk (List.replicate (2 - digits.length) '0') ++ digits)
  else
    if digits.length ≥ 3 then digits
    else String.mk (List.replicate (3 - digits.length) '0') ++ digits

def intRange (lo hi : Int) : List Int :=
  (List.range (hi - lo).toNat).map (fun i => lo + (i : Int))

def mkAdjChunk (adj_id : String) (ad : ChunkData) (source_id sect : String)
    (chunk : RetrievedChunk) : RetrievedChunk :=
  { chunk_id := adj_id
    source_id := ad.source_id.getD source_id
    sectionName := ad.sectionName.getD sect
    page_start := ad.page_start.getD 0
    page_end := ad.page_end.getD 0
    text := ad.text.getD ""
    vector_score := chunk.vector_score * (8 / 10)
    bm25_score := 0
    combined_score := chunk.combined_score * (8 / 10) }

/-- The inner `for offset in range(-window, window + 1)` loop of
`expand_chunks`, folding over `(expanded, existing_ids)`. -/
def expandOffsets (chunkIndex : List (String × ChunkData)) (window : Int)
    (chunk : RetrievedChunk) (source_id sect : String) (num : Int)
    (st : List RetrievedChunk × List String) :
    List RetrievedChunk × List String :=
  ((intRange (-window) (window + 1)).filter (fun o => o ≠ 0)).foldl
    (fun st offset =>
      let adj_id := source_id ++ "__" ++ sect ++ "__" ++
        pyFormat03d (num + offset)
      if adj_id ∈ st.2 then st
      else
        match dictGet? chunkIndex adj_id with
        | none => st
        | some ad =>
          (st.1 ++ [mkAdjChunk adj_id ad source_id sect chunk],
           st.2 ++ [adj_id]))
    st

/-- The outer `for chunk in retrieval.chunks` loop of `expand_chunks`,
with the `break` once the expanded list reaches the cap. -/
def expandLoop (chunkIndex : List (String × ChunkData)) (window : Int)
    (maxAfter : Nat) : List RetrievedChunk →
    List RetrievedChunk × List String → List RetrievedChunk
  | [], st => st.1
  | chunk :: rest, st =>
    match _parse_chunk_id chunk.chunk_id with
    | none => expandLoop chunkIndex window maxAfter rest st
    | some pr =>
      let st2 := expandOffsets chunkIndex window chunk pr.1 pr.2.1 pr.2.2 st
      if st2.1.length ≥ maxAfter then st2.1
      else expandLoop chunkIndex window maxAfter rest st2

/-- `HybridRetriever.expand_chunks` (retriever.py 134-179), with the chunk
index and the configuration as inputs.  An empty chunk index or a
non-positive window short-circuits to the unchanged result. -/
def expand_chunks (chunkIndex : List (String × ChunkData)) (window : Int)
    (maxAfter : Nat) (retrieval : RetrievalResult) : RetrievalResult :=
  if chunkIndex = [] ∨ window ≤ 0 then retrieval
  else
    let existing := pySetOfList (retrieval.chunks.map (fun c => c.chunk_id))
    let expanded := expandLoop chunkIndex window maxAfter retrieval.chunks
      (retrieval.chunks, existing)
    { retrieval with chunks := expanded.take maxAfter }

-- ── Pipeline post-generation composition (pipeline.py 136-143) ────────────────

/-- The generator context block `"\n".join(c.text for c in retrieval.chunks)`. -/
def contextTextOf (retrieval : RetrievalResult) : String :=
  pyJoin "\n" (retrieval.chunks.map (fun c => c.text))

/-- Steps 6 and 7 of `RAGPipeline.query`: citation verification followed by
the entity check, on the retrieval supplied to the generator. -/
def postProcess (response : RAGResponse) (retrieval : RetrievalResult) :
    RAGResponse :=
  entity_check (verify_citations response retrieval) (contextTextOf retrieval)

-- ── Helper lemmas: stable sort ────────────────────────────────────────────────

theorem insertDescBy_perm (lt : α → α → Bool) (x : α) (l : List α) :
    (insertDescBy lt x l).Perm (x :: l) := by
  induction l with
  | nil => exact List.Perm.refl _
  | cons y ys ih =>
    simp only [insertDescBy]
    split
    · exact List.Perm.refl _
    · exact (ih.cons y).trans (List.Perm.swap x y ys)

theorem pySortDescBy_perm (lt : α → α → Bool) (l : List α) :
    (pySortDescBy lt l).Perm l := by
  suffices h : ∀ acc : List α,
      (l.foldl (fun acc x => insertDescBy lt x acc) acc).Perm (acc ++ l) by
    simpa [pySortDescBy] using h []
  induction l with
  | nil => intro acc; simp
  | cons x xs ih =>
    intro acc
    refine (ih (insertDescBy lt x acc)).trans ?_
    refine (((insertDescBy_perm lt x acc).append_right xs).trans ?_)
    exact List.perm_middle.symm

theorem mem_pySortDescBy {lt : α → α → Bool} {l : List α} {a : α} :
    a ∈ pySortDescBy lt l ↔ a ∈ l :=
  (pySortDescBy_perm lt l).mem_iff

-- ── Helper lemmas: set model ──────────────────────────────────────────────────

theorem mem_setAdd {s : List String} {x y : String} :
    y ∈ setAdd s x ↔ y ∈ s ∨ y = x := by
  unfold setAdd
  split
  · constructor
    · exact Or.inl
    · rintro (h | rfl) <;> assumption
  · simp

theorem mem_pySetOfList {l : List String} {x : String} :
    x ∈ pySetOfList l ↔ x ∈ l := by
  suffices h : ∀ acc : List String, x ∈ l.foldl setAdd acc ↔ x ∈ acc ∨ x ∈ l by
    simpa [pySetOfList] using h []
  induction l with
  | nil => intro acc; simp
  | cons y ys ih =>
    intro acc
    rw [List.foldl_cons, ih (setAdd acc y)]
    simp [mem_setAdd, or_assoc, List.mem_cons]

theorem head?_foldl_setAdd (l : List String) :
    ∀ (acc : List String) (y : String), acc.head? = some y →
      (l.foldl setAdd acc).head? = some y := by
  induction l with
  | nil => intro acc y h; simpa using h
  | cons z zs ih =>
    intro acc y h
    rw [List.foldl_cons]
    refine ih (setAdd acc z) y ?_
    unfold setAdd
    split
    · exact h
    · cases acc with
      | nil => simp at h
      | cons a as => simpa using h

theorem head?_pySetOfList (x : String) (xs : List String) :
    (pySetOfList (x :: xs)).head? = some x := by
  have h : pySetOfList (x :: xs) = xs.foldl setAdd [x] := by
    simp [pySetOfList, setAdd]
  rw [h]
  exact head?_foldl_setAdd xs [x] x rfl

-- ── Helper lemmas: dict model ─────────────────────────────────────────────────

theorem dictGet?_cons (x : String × α) (xs : List (String × α)) (k2 : String) :
    dictGet? (x :: xs) k2 = if x.1 = k2 then some x.2 else dictGet? xs k2 := by
  by_cases h : x.1 = k2 <;> simp [dictGet?, List.find?_cons, h]

theorem dictGet?_overwrite (m : List (String × α)) (k k2 : String) (v : α) :
    dictGet? (m.map (fun p => if p.1 = k then (k, v) else p)) k2 =
      if k2 = k then (if m.any (fun p => p.1 = k) then some v else none)
      else dictGet? m k2 := by
  induction m with
  | nil => by_cases h : k2 = k <;> simp [dictGet?, h]
  | cons p ps ih =>
    by_cases hp : p.1 = k
    · by_cases hq : k2 = k
      · subst hq
        simp [List.map_cons, if_pos hp, dictGet?_cons, List.any_cons, hp]
      · have hk2 : ¬ ((k : String) = k2) := fun h => hq h.symm
        have hp2 : ¬ (p.1 = k2) := by rw [hp]; exact hk2
        simp [List.map_cons, if_pos hp, dictGet?_cons, hk2, hp2, ih, hq]
    · by_cases hq : k2 = k
      · subst hq
        have hd : (decide (p.1 = k2)) = false := by simp [hp]
        rw [List.map_cons, if_neg hp, dictGet?_cons, if_neg hp, ih, if_pos rfl,
          if_pos rfl, List.any_cons, hd, Bool.false_or]
      · simp [List.map_cons, if_neg hp, dictGet?_cons, ih, hq]

theorem dictGet?_append_single (m : List (String × α)) (k k2 : String) (v : α)
    (h : m.any (fun p => p.1 = k) = false) :
    dictGet? (m ++ [(k, v)]) k2 = if k2 = k then some v else dictGet? m k2 := by
  induction m with
  | nil =>
    by_cases hq : k2 = k
    · simp [dictGet?_cons, hq, dictGet?]
    · have hk2 : ¬ ((k : String) = k2) := fun hh => hq hh.symm
      simp [dictGet?_cons, hk2, hq, dictGet?]
  | cons p ps ih =>
    simp only [List.any_cons, Bool.or_eq_false_iff] at h
    obtain ⟨h1, h2⟩ := h
    by_cases hq : k2 = k
    · subst hq
      have hp2 : ¬ (p.1 = k2) := by simpa using h1
      simp [List.cons_append, dictGet?_cons, hp2, ih h2]
    · by_cases hp : p.1 = k2 <;>
        simp [List.cons_append, dictGet?_cons, hp, ih h2, hq]

theorem dictGet?_dictSet (m : List (String × α)) (k k2 : String) (v : α) :
    dictGet? (dictSet m k v) k2 = if k2 = k then some v else dictGet? m k2 := by
  unfold dictSet
  split
  · next hany =>
    rw [dictGet?_overwrite]
    simp [hany]
  · next hany =>
    exact dictGet?_append_single m k k2 v (Bool.eq_false_iff.mpr hany)

theorem dictGet?_buildDict (key : α → String) (val : α → β) (l : List α)
    (k : String) :
    dictGet? (buildDict key val l) k =
      (l.reverse.find? (fun x => key x = k)).map val := by
  suffices h : ∀ m : List (String × β),
      dictGet? (l.foldl (fun m x => dictSet m (key x) (val x)) m) k
        = ((l.reverse.find? (fun x => key x = k)).map val).or (dictGet? m k) by
    have h2 := h []
    simpa [dictGet?] using h2
  induction l with
  | nil => intro m; simp
  | cons x xs ih =>
    intro m
    rw [List.foldl_cons, ih, List.reverse_cons, List.find?_append]
    cases hf : xs.reverse.find? (fun a => key a = k) with
    | some a => simp
    | none =>
      rw [dictGet?_dictSet]
      by_cases hx : key x = k
      · have hd : (decide (key x = k)) = true := by simp [hx]
        rw [if_pos hx.symm]
        simp [List.find?_cons, hd]
      · have hd : (decide (key x = k)) = false := by simp [hx]
        rw [if_neg (fun h => hx h.symm)]
        simp [List.find?_cons, hd]

theorem keys_dictSet (m : List (String × α)) (k : String) (v : α) :
    (dictSet m k v).map (fun p => p.1) =
      if m.any (fun p => p.1 = k) then m.map (fun p => p.1)
      else m.map (fun p => p.1) ++ [k] := by
  unfold dictSet
  split
  · next h =>
    rw [List.map_map]
    apply List.map_congr_left
    intro p _
    by_cases hp : p.1 = k <;> simp [hp]
  · next h => simp

theorem mem_keys_dictSet {m : List (String × α)} {k v k2} :
    k2 ∈ (dictSet m k v).map (fun p => p.1) ↔
      k2 ∈ m.map (fun p => p.1) ∨ k2 = k := by
  rw [keys_dictSet]
  split
  · next h =>
    constructor
    · exact Or.inl
    · rintro (hm | rfl)
      · exact hm
      · rw [List.any_eq_true] at h
        obtain ⟨p, hp, hpk⟩ := h
        simp only [decide_eq_true_eq] at hpk
        exact List.mem_map.mpr ⟨p, hp, hpk⟩
  · simp

theorem mem_keys_buildDict (key : α → String) (val : α → β) (l : List α)
    (k : String) :
    k ∈ (buildDict key val l).map (fun p => p.1) ↔ k ∈ l.map key := by
  suffices h : ∀ m : List (String × β),
      k ∈ (l.foldl (fun m x => dictSet m (key x) (val x)) m).map (fun p => p.1)
        ↔ k ∈ m.map (fun p => p.1) ∨ k ∈ l.map key by
    simpa [buildDict] using h []
  induction l with
  | nil => intro m; simp
  | cons x xs ih =>
    intro m
    rw [List.foldl_cons, ih (dictSet m (key x) (val x))]
    simp only [mem_keys_dictSet, List.map_cons, List.mem_cons]
    tauto

theorem dictGet?_eq_none {m : List (String × α)} {k : String} :
    dictGet? m k = none ↔ k ∉ m.map (fun p => p.1) := by
  unfold dictGet?
  rw [Option.map_eq_none', List.find?_eq_none]
  constructor
  · intro h hmem
    obtain ⟨p, hp, hpk⟩ := List.mem_map.mp hmem
    have h2 := h p hp
    simp [hpk] at h2
  · intro h p hp
    simp only [decide_eq_true_eq]
    intro hpk
    exact h (List.mem_map.mpr ⟨p, hp, hpk⟩)

theorem find?_key_unique {key : α → String} {l : List α} {k : String}
    (h : (l.map key).Nodup) {x : α} (hx : x ∈ l) (hk : key x = k) :
    l.find? (fun a => key a = k) = some x := by
  induction l with
  | nil => cases hx
  | cons y ys ih =>
    rw [List.map_cons, List.nodup_cons] at h
    by_cases hy : key y = k
    · have hxy : x = y := by
        rcases List.mem_cons.mp hx with rfl | hxys
        · rfl
        · exfalso
          exact h.1 (by rw [hy, ← hk]; exact List.mem_map_of_mem key hxys)
      subst hxy
      simp [List.find?_cons, hy]
    · have hd : (decide (key y = k)) = false := by simp [hy]
      have hxys : x ∈ ys := by
        rcases List.mem_cons.mp hx with rfl | hxys
        · exact absurd hk hy
        · exact hxys
      rw [List.find?_cons, hd]
      exact ih h.2 hxys

theorem filterMap_of_forall_some {l : List α} {f : α → Option α}
    (h : ∀ x ∈ l, f x = some x) : l.filterMap f = l := by
  induction l with
  | nil => rfl
  | cons x xs ih =>
    rw [List.filterMap_cons, h x (List.mem_cons_self x xs)]
    rw [ih (fun y hy => h y (List.mem_cons_of_mem x hy))]

theorem filter_isNone_eq_nil {l : List α} {f : α → Option β}
    (h : ∀ x ∈ l, (f x).isNone = false) :
    l.filter (fun x => (f x).isNone) = [] := by
  rw [List.filter_eq_nil_iff]
  intro x hx
  simp [h x hx]

-- ── Citation verifier lemmas ──────────────────────────────────────────────────

theorem resolve_mem {raw : String} {ids : List String} {r : String}
    (h : _resolve_chunk_id raw ids = some r) : r ∈ ids := by
  unfold _resolve_chunk_id at h
  split at h
  · next hmem =>
    cases h
    assumption
  · exact List.mem_of_find?_eq_some h

theorem citeKeep_sound {ids : List String} {cite c : Citation}
    (h : citeKeep ids cite = some c) :
    c.chunk_id ∈ ids ∧ c.chunk_id ≠ "" := by
  unfold citeKeep at h
  cases hres : _resolve_chunk_id cite.chunk_id ids with
  | none => rw [hres] at h; cases h
  | some r =>
    rw [hres] at h
    dsimp only at h
    by_cases hr : r = ""
    · rw [if_pos hr] at h; cases h
    · rw [if_neg hr] at h
      cases h
      exact ⟨resolve_mem hres, hr⟩

theorem citeKeep_self {ids : List String} {c : Citation}
    (hmem : c.chunk_id ∈ ids) (hne : c.chunk_id ≠ "") :
    citeKeep ids c = some c := by
  unfold citeKeep _resolve_chunk_id
  rw [if_pos hmem]
  dsimp only
  rw [if_neg hne]

theorem verify_citations_citations (resp : RAGResponse) (ret : RetrievalResult) :
    (verify_citations resp ret).citations =
      resp.citations.filterMap
        (citeKeep (pySetOfList (ret.chunks.map (fun c => c.chunk_id)))) := by
  unfold verify_citations
  dsimp only
  split <;> rfl

theorem verify_citations_of_all_keep {resp : RAGResponse}
    {ret : RetrievalResult}
    (h : ∀ c ∈ resp.citations,
      citeKeep (pySetOfList (ret.chunks.map (fun c => c.chunk_id))) c = some c) :
    verify_citations resp ret = resp := by
  obtain ⟨answer, citations, confidence, eq, ne, cav⟩ := resp
  unfold verify_citations
  dsimp only
  simp only at h
  rw [filterMap_of_forall_some h,
    filter_isNone_eq_nil (fun c hc => by rw [h c hc]; rfl)]
  simp

theorem entity_check_citations (r : RAGResponse) (ctx : String) :
    (entity_check r ctx).citations = r.citations := by
  unfold entity_check
  dsimp only
  repeat' split
  all_goals rfl

-- ── Claim theorems: citation soundness, idempotence, empty-id resolution ──────

/-- Claim C1: every citation surviving the post-generation guardrails
(citation verification followed by the entity check, as run by
`RAGPipeline.query`) refers to a chunk id among the retrieved chunks that
were supplied to the generator — unresolvable citations are dropped and
resolvable ones rewritten to a retrieved identifier. -/
theorem citation_soundness (resp : RAGResponse) (ret : RetrievalResult) :
    ∀ cite ∈ (postProcess resp ret).citations,
      cite.chunk_id ∈ ret.chunks.map (fun c => c.chunk_id) := by
  intro cite hc
  unfold postProcess at hc
  rw [entity_check_citations, verify_citations_citations] at hc
  obtain ⟨a, _, hac⟩ := List.mem_filterMap.mp hc
  exact mem_pySetOfList.mp (citeKeep_sound hac).1

/-- Witness for C1 at a concrete answer and retrieval: the generator cited
the truncated id `m__001`, the verifier rewrote it to `a__m__001`, which is
among the retrieved ids. -/
theorem citation_soundness_witness :
    (Citation.mk "s" "a__m__001" "").chunk_id ∈
      (RetrievalResult.mk "q"
        [RetrievedChunk.mk "a__m__001" "a" "m" 0 0 "t" 0 0 0] 0 0 true).chunks.map
        (fun c => c.chunk_id) :=
  citation_soundness
    (RAGResponse.mk "ok" [Citation.mk "s" "m__001" ""] "high" "" false [])
    (RetrievalResult.mk "q"
      [RetrievedChunk.mk "a__m__001" "a" "m" 0 0 "t" 0 0 0] 0 0 true)
    (Citation.mk "s" "a__m__001" "") (by decide)

/-- Claim C7: the Citation Verifier is idempotent — a second run on its own
output (with the same retrieval) drops nothing, appends no caveat and leaves
confidence unchanged. -/
theorem citation_verifier_idempotent (resp : RAGResponse)
    (ret : RetrievalResult) :
    verify_citations (verify_citations resp ret) ret =
      verify_citations resp ret := by
  apply verify_citations_of_all_keep
  intro c hc
  rw [verify_citations_citations] at hc
  obtain ⟨a, _, hac⟩ := List.mem_filterMap.mp hc
  obtain ⟨hmem, hne⟩ := citeKeep_sound hac
  exact citeKeep_self hmem hne

/-- Claim C9 counterexample: with the empty string itself among the retrieved
identifiers (a non-empty identifier set), a citation whose `chunk_id` is the
empty string resolves to `""`, which is falsy in Python, so the citation is
dropped — it is not kept as the claim states. -/
theorem empty_citation_cex :
    (verify_citations
        (RAGResponse.mk "ok" [Citation.mk "s" "" ""] "high" "" false [])
        (RetrievalResult.mk "q" [RetrievedChunk.mk "" "s" "m" 0 0 "t" 0 0 0]
          0 0 true)).citations = []
    ∧ (RetrievalResult.mk "q" [RetrievedChunk.mk "" "s" "m" 0 0 "t" 0 0 0]
        0 0 true).chunks.map (fun c => c.chunk_id) ≠ [] := by
  constructor
  · rfl
  · decide

/-- Claim C9 amended: `_resolve_chunk_id` returns `none` only when the raw
identifier neither equals nor is a suffix of any retrieved identifier; and
for every non-empty retrieved set **not containing the empty string**, a
citation with empty `chunk_id` is kept by the verifier, rewritten to a
retrieved identifier chosen by set iteration order (every identifier ends
with the empty suffix).  When `""` is itself among the retrieved ids the
exact match returns the falsy `""` and the citation is dropped instead. -/
theorem empty_citation_resolution :
    (∀ (ids : List String) (raw : String), _resolve_chunk_id raw ids = none →
      raw ∉ ids ∧ ∀ rid ∈ ids, pyEndsWith rid raw = false)
    ∧ (∀ (resp : RAGResponse) (ret : RetrievalResult) (cite : Citation),
        cite ∈ resp.citations → cite.chunk_id = "" →
        ret.chunks ≠ [] → "" ∉ ret.chunks.map (fun c => c.chunk_id) →
        ∃ rid ∈ ret.chunks.map (fun c => c.chunk_id),
          { cite with chunk_id := rid } ∈
            (verify_citations resp ret).citations) := by
  constructor
  · intro ids raw h
    unfold _resolve_chunk_id at h
    split at h
    · cases h
    · next hmem =>
      have h2 := List.find?_eq_none.mp h
      refine ⟨hmem, fun rid hrid => ?_⟩
      have h3 := h2 rid hrid
      simp only [Bool.or_eq_true, not_or] at h3
      simpa using h3.2
  · intro resp ret cite hcite hcid hchunks hnotin
    obtain ⟨c0, rest, hc⟩ : ∃ c0 rest, ret.chunks = c0 :: rest := by
      cases hx : ret.chunks with
      | nil => exact absurd hx hchunks
      | cons a b => exact ⟨a, b, rfl⟩
    have hhead : (pySetOfList (ret.chunks.map (fun c => c.chunk_id))).head? =
        some c0.chunk_id := by
      rw [hc, List.map_cons]
      exact head?_pySetOfList c0.chunk_id (rest.map (fun c => c.chunk_id))
    cases hids : pySetOfList (ret.chunks.map (fun c => c.chunk_id)) with
    | nil => rw [hids] at hhead; cases hhead
    | cons id0 tl =>
      rw [hids] at hhead
      have hid0 : id0 = c0.chunk_id := by
        simpa using hhead
      have hid0mem : id0 ∈ ret.chunks.map (fun c => c.chunk_id) := by
        have : id0 ∈ pySetOfList (ret.chunks.map (fun c => c.chunk_id)) := by
          rw [hids]; exact List.mem_cons_self id0 tl
        exact mem_pySetOfList.mp this
      have hid0ne : id0 ≠ "" := fun h => hnotin (h ▸ hid0mem)
      have hresolve : _resolve_chunk_id ""
          (pySetOfList (ret.chunks.map (fun c => c.chunk_id))) = some id0 := by
        unfold _resolve_chunk_id
        rw [if_neg (fun hmem => hnotin (mem_pySetOfList.mp hmem))]
        rw [hids, List.find?_cons]
        have hsuf : pyEndsWith id0 "" = true := by
          simp [pyEndsWith, List.isSuffixOf]
        rw [show (pyEndsWith id0 ("__" ++ "") || pyEndsWith id0 "") = true by
          rw [hsuf, Bool.or_true]]
      have hkeep : citeKeep
          (pySetOfList (ret.chunks.map (fun c => c.chunk_id))) cite =
            some { cite with chunk_id := id0 } := by
        unfold citeKeep
        rw [hcid, hresolve]
        dsimp only
        rw [if_neg hid0ne]
      refine ⟨id0, hid0mem, ?_⟩
      rw [verify_citations_citations]
      exact List.mem_filterMap.mpr ⟨cite, hcite, hkeep⟩

/-- Witness for the amended C9 at concrete inputs: `zzz` resolves to nothing
among `[ab]`, and an empty-id citation is kept and rewritten against the
retrieved id `a__m__001`. -/
theorem empty_citation_resolution_witness :
    ("zzz" ∉ (["ab"] : List String))
    ∧ ∃ rid ∈ (RetrievalResult.mk "q"
          [RetrievedChunk.mk "a__m__001" "a" "m" 0 0 "t" 0 0 0]
          0 0 true).chunks.map (fun c => c.chunk_id),
        { Citation.mk "s" "" "" with chunk_id := rid } ∈
          (verify_citations
            (RAGResponse.mk "ok" [Citation.mk "s" "" ""] "high" "" false [])
            (RetrievalResult.mk "q"
              [RetrievedChunk.mk "a__m__001" "a" "m" 0 0 "t" 0 0 0]
              0 0 true)).citations :=
  ⟨(empty_citation_resolution.1 ["ab"] "zzz" (by decide)).1,
    empty_citation_resolution.2
      (RAGResponse.mk "ok" [Citation.mk "s" "" ""] "high" "" false [])
      (RetrievalResult.mk "q"
        [RetrievedChunk.mk "a__m__001" "a" "m" 0 0 "t" 0 0 0] 0 0 true)
      (Citation.mk "s" "" "") (by decide) rfl (by decide) (by decide)⟩

-- ── Entity filter branch lemmas ───────────────────────────────────────────────

theorem entity_check_no_evidence {resp : RAGResponse} {ctx : String}
    (h : resp.no_evidence = true) : entity_check resp ctx = resp := by
  unfold entity_check
  rw [if_pos h]

theorem entity_check_no_entities {resp : RAGResponse} {ctx : String}
    (h0 : resp.no_evidence = false)
    (h1 : _extract_entities resp.answer = []) :
    entity_check resp ctx = resp := by
  unfold entity_check
  dsimp only
  rw [if_neg (by simp [h0]), if_pos h1]

theorem entity_check_all_grounded {resp : RAGResponse} {ctx : String}
    (h0 : resp.no_evidence = false)
    (h1 : _extract_entities resp.answer ≠ [])
    (h2 : ungroundedOf (_extract_entities resp.answer) ctx = []) :
    entity_check resp ctx = resp := by
  unfold entity_check
  dsimp only
  rw [if_neg (by simp [h0]), if_neg h1, if_pos h2]

theorem entity_check_nothing_stripped {resp : RAGResponse} {ctx : String}
    (h0 : resp.no_evidence = false)
    (h1 : _extract_entities resp.answer ≠ [])
    (h2 : ungroundedOf (_extract_entities resp.answer) ctx ≠ [])
    (h3 : (entityStrip (ungroundedOf (_extract_entities resp.answer) ctx)
        resp.answer).1 = []) :
    entity_check resp ctx = resp := by
  unfold entity_check
  dsimp only
  rw [if_neg (by simp [h0]), if_neg h1, if_neg h2, if_pos h3]

theorem entity_check_strip_eq {resp : RAGResponse} {ctx : String}
    (h0 : resp.no_evidence = false)
    (h1 : _extract_entities resp.answer ≠ [])
    (h2 : ungroundedOf (_extract_entities resp.answer) ctx ≠ [])
    (h3 : (entityStrip (ungroundedOf (_extract_entities resp.answer) ctx)
        resp.answer).1 ≠ []) :
    entity_check resp ctx =
      (if ((pyStrip (pyJoin "\n" (entityStrip
            (ungroundedOf (_extract_entities resp.answer) ctx)
            resp.answer).2)).length : ℚ) ≥
          (resp.answer.length : ℚ) * (3 / 10) then
        { resp with
          answer := pyStrip (pyJoin "\n" (entityStrip
            (ungroundedOf (_extract_entities resp.answer) ctx)
            resp.answer).2),
          caveats := resp.caveats ++
            [entityGuardCaveat (entityStrip
              (ungroundedOf (_extract_entities resp.answer) ctx)
              resp.answer).1 (ungroundedOf (_extract_entities resp.answer) ctx)],
          confidence :=
            if resp.confidence = "high" then "medium" else resp.confidence }
      else
        { resp with
          caveats := resp.caveats ++
            [entityFlagCaveat (ungroundedOf (_extract_entities resp.answer) ctx)],
          confidence :=
            if resp.confidence = "high" then "medium" else resp.confidence }) := by
  unfold entity_check
  dsimp only
  rw [if_neg (by simp [h0]), if_neg h1, if_neg h2, if_neg h3]

-- ── Claim theorems: entity filter (C3, C10) ───────────────────────────────────

/-- Claim C3 counterexample: at a remaining length of exactly 30 percent of
the original (answer of length 10, cleaned answer of length 3), stripping
IS applied — the answer text changes — contradicting the claim that at
exactly 30 percent stripping is not applied.  (In CPython `3 >= 10 * 0.3`
is `True` as well: `10 * 0.3` rounds to exactly `3.0`.) -/
theorem entity_filter_floor_cex :
    (entity_check (RAGResponse.mk "ab. BBBBBB" [] "high" "" false [])
        "x").answer = "ab."
    ∧ 10 * ("ab." : String).length = 3 * ("ab. BBBBBB" : String).length
    ∧ ("ab." : String) ≠ "ab. BBBBBB" := by
  refine ⟨by with_unfolding_all decide, rfl, by decide⟩

/-- Claim C3 amended: stripping never reduces the answer below 30 percent of
its original length, and when stripping would remove **more** than 70
percent the text is left unchanged with a flagging caveat appended; but at a
remaining length of exactly 30 percent of the original, stripping IS applied
(the floor comparison in the source is `>=`). -/
theorem entity_filter_floor (resp : RAGResponse) (ctx : String) :
    ((entity_check resp ctx).answer ≠ resp.answer →
      (resp.answer.length : ℚ) * (3 / 10) ≤
        ((entity_check resp ctx).answer.length : ℚ))
    ∧ (∀ ung st cleaned,
        ung = ungroundedOf (_extract_entities resp.answer) ctx →
        st = entityStrip ung resp.answer →
        cleaned = pyStrip (pyJoin "\n" st.2) →
        resp.no_evidence = false →
        _extract_entities resp.answer ≠ [] → ung ≠ [] → st.1 ≠ [] →
        (((cleaned.length : ℚ) < (resp.answer.length : ℚ) * (3 / 10) →
          (entity_check resp ctx).answer = resp.answer ∧
          (entity_check resp ctx).caveats =
            resp.caveats ++ [entityFlagCaveat ung])
        ∧ ((resp.answer.length : ℚ) * (3 / 10) ≤ (cleaned.length : ℚ) →
          (entity_check resp ctx).answer = cleaned ∧
          (entity_check resp ctx).caveats =
            resp.caveats ++ [entityGuardCaveat st.1 ung]))) := by
  constructor
  · intro hne
    by_cases h0 : resp.no_evidence
    · rw [entity_check_no_evidence h0] at hne
      exact absurd rfl hne
    · have h0f : resp.no_evidence = false := by simpa using h0
      by_cases h1 : _extract_entities resp.answer = []
      · rw [entity_check_no_entities h0f h1] at hne
        exact absurd rfl hne
      · by_cases h2 : ungroundedOf (_extract_entities resp.answer) ctx = []
        · rw [entity_check_all_grounded h0f h1 h2] at hne
          exact absurd rfl hne
        · by_cases h3 : (entityStrip
              (ungroundedOf (_extract_entities resp.answer) ctx)
              resp.answer).1 = []
          · rw [entity_check_nothing_stripped h0f h1 h2 h3] at hne
            exact absurd rfl hne
          · rw [entity_check_strip_eq h0f h1 h2 h3] at hne ⊢
            split at hne
            · next hcond =>
              rw [if_pos hcond]
              exact hcond
            · next hcond =>
              exact absurd rfl hne
  · intro ung st cleaned hung hst hcl h0 h1 h2 h3
    subst hung; subst hst; subst hcl
    rw [entity_check_strip_eq h0 h1 h2 h3]
    constructor
    · intro hlt
      rw [if_neg (by exact fun hge => absurd hlt (not_lt.mpr hge))]
      exact ⟨rfl, rfl⟩
    · intro hge
      rw [if_pos hge]
      exact ⟨rfl, rfl⟩

/-- Witness for the amended C3: at exactly 30 percent remaining the answer
is stripped (floor attained), and below 30 percent the answer is left
unchanged with the flagging caveat. -/
theorem entity_filter_floor_witness :
    ((("ab. BBBBBB" : String).length : ℚ) * (3 / 10) ≤
      ((entity_check (RAGResponse.mk "ab. BBBBBB" [] "high" "" false [])
        "x").answer.length : ℚ))
    ∧ (entity_check (RAGResponse.mk "a. BBBBBB" [] "high" "" false [])
        "x").answer = "a. BBBBBB" :=
  ⟨(entity_filter_floor
      (RAGResponse.mk "ab. BBBBBB" [] "high" "" false []) "x").1
      (by with_unfolding_all decide),
   (((entity_filter_floor
      (RAGResponse.mk "a. BBBBBB" [] "high" "" false []) "x").2 _ _ _
      rfl rfl rfl rfl (by decide) (by decide) (by decide)).1
      (by with_unfolding_all decide)).1⟩

/-- Claim C10: whenever at least one sentence is detected as containing an
ungrounded entity, the filter downgrades confidence from high to medium —
including on the safety-floor path where the answer text is left intact:
the downgrade is not conditioned on stripping actually being applied. -/
theorem entity_filter_confidence_downgrade (resp : RAGResponse) (ctx : String) :
    resp.no_evidence = false →
    _extract_entities resp.answer ≠ [] →
    ungroundedOf (_extract_entities resp.answer) ctx ≠ [] →
    (entityStrip (ungroundedOf (_extract_entities resp.answer) ctx)
        resp.answer).1 ≠ [] →
    resp.confidence = "high" →
    (entity_check resp ctx).confidence = "medium"
    ∧ (((pyStrip (pyJoin "\n" (entityStrip
          (ungroundedOf (_extract_entities resp.answer) ctx)
          resp.answer).2)).length : ℚ) <
        (resp.answer.length : ℚ) * (3 / 10) →
        (entity_check resp ctx).answer = resp.answer) := by
  intro h0 h1 h2 h3 hconf
  rw [entity_check_strip_eq h0 h1 h2 h3]
  constructor
  · split <;> simp [hconf]
  · intro hlt
    rw [if_neg (by exact fun hge => absurd hlt (not_lt.mpr hge))]

/-- Witness for C10 at a concrete safety-floor input: one sentence would be
stripped but stripping would leave under 30 percent, so the text stays and
confidence still drops from high to medium. -/
theorem entity_filter_confidence_downgrade_witness :
    (entity_check (RAGResponse.mk "a. BBBBBB" [] "high" "" false [])
      "x").confidence = "medium"
    ∧ (entity_check (RAGResponse.mk "a. BBBBBB" [] "high" "" false [])
      "x").answer = "a. BBBBBB" :=
  ⟨(entity_filter_confidence_downgrade
      (RAGResponse.mk "a. BBBBBB" [] "high" "" false []) "x"
      rfl (by decide) (by decide) (by decide) rfl).1,
   (entity_filter_confidence_downgrade
      (RAGResponse.mk "a. BBBBBB" [] "high" "" false []) "x"
      rfl (by decide) (by decide) (by decide) rfl).2
      (by with_unfolding_all decide)⟩

-- ── Claim theorems: reranker degradation (C5) ─────────────────────────────────

/-- Claim C5: a failed or unusable scoring call returns the chunks in exactly
the original fused order; with one or zero candidates the reranker returns
its input unchanged whatever the service would say; and on success the
output is a permutation of the input (nothing dropped) in which candidates
absent from the response carry relevance 0. -/
theorem reranker_degradation :
    (∀ (query : String) (chunks : List RetrievedChunk),
      rerank none query chunks = chunks)
    ∧ (∀ (out : Option (List ChunkScore)) (query : String)
        (chunks : List RetrievedChunk), chunks.length ≤ 1 →
        rerank out query chunks = chunks)
    ∧ (∀ (scores : List ChunkScore) (query : String)
        (chunks : List RetrievedChunk),
        (rerank (some scores) query chunks).Perm chunks
        ∧ ∀ c ∈ chunks, c.chunk_id ∉ scores.map (fun s => s.chunk_id) →
            relevanceOf (buildScoreMap scores) c = 0) := by
  refine ⟨?_, ?_, ?_⟩
  · intro q chunks
    unfold rerank
    split <;> rfl
  · intro out q chunks h
    unfold rerank
    rw [if_pos h]
  · intro scores q chunks
    constructor
    · unfold rerank
      split
      · exact List.Perm.refl _
      · exact pySortDescBy_perm _ chunks
    · intro c _ hnot
      unfold relevanceOf buildScoreMap
      rw [dictGet?_eq_none.mpr
        (fun hmem => hnot ((mem_keys_buildDict _ _ _ _).mp hmem))]
      rfl

/-- Witness for C5 at concrete inputs: service failure preserves order, a
singleton list is untouched, a successful call permutes without dropping,
and an unscored candidate has relevance 0. -/
theorem reranker_degradation_witness :
    rerank none "q"
      [RetrievedChunk.mk "a" "" "" 0 0 "" 0 0 0,
       RetrievedChunk.mk "b" "" "" 0 0 "" 0 0 0] =
      [RetrievedChunk.mk "a" "" "" 0 0 "" 0 0 0,
       RetrievedChunk.mk "b" "" "" 0 0 "" 0 0 0]
    ∧ rerank (some [ChunkScore.mk "b" 9]) "q"
        [RetrievedChunk.mk "a" "" "" 0 0 "" 0 0 0] =
        [RetrievedChunk.mk "a" "" "" 0 0 "" 0 0 0]
    ∧ (rerank (some [ChunkScore.mk "b" 9]) "q"
        [RetrievedChunk.mk "a" "" "" 0 0 "" 0 0 0,
         RetrievedChunk.mk "b" "" "" 0 0 "" 0 0 0]).Perm
        [RetrievedChunk.mk "a" "" "" 0 0 "" 0 0 0,
         RetrievedChunk.mk "b" "" "" 0 0 "" 0 0 0]
    ∧ relevanceOf (buildScoreMap [ChunkScore.mk "b" 9])
        (RetrievedChunk.mk "a" "" "" 0 0 "" 0 0 0) = 0 :=
  ⟨reranker_degradation.1 "q"
     [RetrievedChunk.mk "a" "" "" 0 0 "" 0 0 0,
      RetrievedChunk.mk "b" "" "" 0 0 "" 0 0 0],
   reranker_degradation.2.1 (some [ChunkScore.mk "b" 9]) "q"
     [RetrievedChunk.mk "a" "" "" 0 0 "" 0 0 0] (by decide),
   (reranker_degradation.2.2 [ChunkScore.mk "b" 9] "q"
     [RetrievedChunk.mk "a" "" "" 0 0 "" 0 0 0,
      RetrievedChunk.mk "b" "" "" 0 0 "" 0 0 0]).1,
   (reranker_degradation.2.2 [ChunkScore.mk "b" 9] "q"
     [RetrievedChunk.mk "a" "" "" 0 0 "" 0 0 0,
      RetrievedChunk.mk "b" "" "" 0 0 "" 0 0 0]).2
     (RetrievedChunk.mk "a" "" "" 0 0 "" 0 0 0) (by decide) (by decide)⟩

-- ── Claim theorems: evidence gate (C6) ────────────────────────────────────────

theorem nodup_setAdd {s : List String} {x : String} (h : s.Nodup) :
    (setAdd s x).Nodup := by
  unfold setAdd
  split
  · exact h
  · next hx =>
    rw [List.nodup_append]
    exact ⟨h, List.nodup_singleton x,
      fun a ha hax => hx (by rwa [List.mem_singleton.mp hax] at ha)⟩

theorem nodup_extract_keywords (query : String) :
    (_extract_query_keywords query).Nodup := by
  unfold _extract_query_keywords
  generalize kwTokens query = toks
  suffices h : ∀ acc : List String, acc.Nodup →
      (toks.foldl (fun keywords tok =>
        let low := pyLower tok
        if low ∉ _STOP_WORDS ∧ low.length ≥ 3 then setAdd keywords low
        else keywords) acc).Nodup from h [] List.nodup_nil
  induction toks with
  | nil => intro acc hacc; exact hacc
  | cons t ts ih =>
    intro acc hacc
    rw [List.foldl_cons]
    apply ih
    dsimp only
    split
    · exact nodup_setAdd hacc
    · exact hacc

/-- Claim C6: the Evidence Gate (with its default `min_keyword_hits = 2`, as
called by the pipeline) passes vacuously when no keywords survive
lower-casing, stop-word removal and the length-3 floor; otherwise it passes
iff the number of distinct extracted keywords occurring as substrings of the
concatenated lower-cased chunk text is at least
`min 2 (max 1 (keyword_count / 3))`. -/
theorem evidence_gate_rule (query : String) (chunks : List RetrievedChunk) :
    (_extract_query_keywords query).Nodup
    ∧ (topic_presence_check query chunks = true ↔
        (_extract_query_keywords query = [] ∨
          ((_extract_query_keywords query).filter
            (fun kw => pyIn kw (contextLowerOf chunks))).length ≥
            min 2 (max 1 ((_extract_query_keywords query).length / 3)))) := by
  refine ⟨nodup_extract_keywords query, ?_⟩
  unfold topic_presence_check
  dsimp only
  split
  · next h => simp [h]
  · next h =>
    rw [decide_eq_true_eq]
    constructor
    · exact Or.inr
    · rintro (hc | hge)
      · exact absurd hc h
      · exact hge

-- ── Claim theorems: expansion cap (C8) ────────────────────────────────────────

/-- Claim C8 counterexample: on the early-return path (empty chunk index, or
a non-positive window) the expander returns its input unchanged, so a result
that already exceeds `max_chunks_after_expand` stays over the cap. -/
theorem expansion_cap_cex :
    ¬ ((expand_chunks [] 1 10
        (RetrievalResult.mk "q"
          (List.replicate 11 (RetrievedChunk.mk "a" "s" "m" 0 0 "" 0 0 0))
          0 0 true)).chunks.length ≤ 10) := by decide

/-- Claim C8 amended: whenever the expansion path actually runs (non-empty
chunk index and positive window) the returned result has at most
`max_chunks_after_expand` chunks, with partially-expanded results accepted
and no rollback; on the early-return path (empty index or window ≤ 0) the
result is returned unchanged, so the cap holds there only if the input
already satisfied it. -/
theorem expansion_cap (chunkIndex : List (String × ChunkData)) (window : Int)
    (maxAfter : Nat) (retrieval : RetrievalResult) :
    (chunkIndex ≠ [] → 0 < window →
      (expand_chunks chunkIndex window maxAfter retrieval).chunks.length ≤
        maxAfter)
    ∧ ((chunkIndex = [] ∨ window ≤ 0) →
      expand_chunks chunkIndex window maxAfter retrieval = retrieval) := by
  constructor
  · intro h1 h2
    unfold expand_chunks
    rw [if_neg (by
      rintro (hc | hw)
      · exact h1 hc
      · exact absurd h2 (not_lt.mpr hw))]
    dsimp only
    exact List.length_take_le maxAfter _
  · intro h
    unfold expand_chunks
    rw [if_pos h]

/-- Witness for the amended C8: a real expansion stays within the cap, and
an empty chunk index returns the retrieval unchanged. -/
theorem expansion_cap_witness :
    (expand_chunks [("s__m__000", ChunkData.mk none none none none (some "t"))]
      1 2 (RetrievalResult.mk "q"
        [RetrievedChunk.mk "s__m__001" "s" "m" 0 0 "t" 1 0 1]
        0 0 true)).chunks.length ≤ 2
    ∧ expand_chunks [] 1 5 (RetrievalResult.mk "q" [] 0 0 true) =
        RetrievalResult.mk "q" [] 0 0 true :=
  ⟨(expansion_cap _ _ _ _).1 (by decide) (by decide),
   (expansion_cap _ _ _ _).2 (Or.inl rfl)⟩

-- ── Score fusion lemmas ───────────────────────────────────────────────────────

theorem mem_of_dictGet?_eq_some {m : List (String × α)} {k : String} {v : α}
    (h : dictGet? m k = some v) : k ∈ m.map (fun p => p.1) := by
  by_contra hmem
  rw [dictGet?_eq_none.mpr hmem] at h
  cases h

theorem map_enumFrom (f : α → β) (r : Nat) (l : List α) :
    (enumFrom r l).map (fun p => f p.2) = l.map f := by
  induction l generalizing r with
  | nil => rfl
  | cons x xs ih => simp [enumFrom, ih]

/-- Every fused candidate carries exactly the dictionary scores of its id
(0 when absent) and the weighted combination. -/
theorem fuseCandidates_spec (vw bw : ℚ) (vres : List (Doc × ℚ))
    (bres : List Doc) :
    ∀ c ∈ fuseCandidates vw bw vres bres,
      c.vector_score = ((dictGet? (buildVectorScored vres) c.chunk_id).map
        (fun p => p.2)).getD 0
      ∧ c.bm25_score = ((dictGet? (buildBm25Scored bres) c.chunk_id).map
        (fun p => p.2)).getD 0
      ∧ c.combined_score = vw * c.vector_score + bw * c.bm25_score
      ∧ (c.chunk_id ∈ (buildVectorScored vres).map (fun p => p.1) ∨
          c.chunk_id ∈ (buildBm25Scored bres).map (fun p => p.1)) := by
  intro c hc
  unfold fuseCandidates at hc
  dsimp only at hc
  obtain ⟨cid, _, heq⟩ := List.mem_filterMap.mp hc
  cases hv : dictGet? (buildVectorScored vres) cid with
  | some pv =>
    rw [hv] at heq
    dsimp only at heq
    cases heq
    dsimp only [mkFusedChunk]
    rw [hv]
    exact ⟨rfl, rfl, rfl, Or.inl (mem_of_dictGet?_eq_some hv)⟩
  | none =>
    rw [hv] at heq
    cases hb : dictGet? (buildBm25Scored bres) cid with
    | some pb =>
      rw [hb] at heq
      dsimp only at heq
      cases heq
      dsimp only [mkFusedChunk]
      rw [hv, hb]
      exact ⟨rfl, rfl, rfl, Or.inr (mem_of_dictGet?_eq_some hb)⟩
    | none =>
      rw [hb] at heq
      dsimp only at heq
      cases heq

-- ── Claim theorems: fusion correctness (C2) and threshold invariant (C4) ──────

/-- Claim C2: the fused candidate set is the union of the semantic and
lexical result sets, and each candidate's `combined_score` equals
`w_vec * sim + w_lex * lex_score`, where `sim = 1 / (1 + distance)` for
candidates in the semantic list and 0 otherwise, and
`lex_score = 1 / (rank + 1)` (0-indexed rank) for candidates in the lexical
list and 0 otherwise.  Distinct ids per result list, as real index calls
return. -/
theorem fusion_correctness (vw bw : ℚ) (vres : List (Doc × ℚ))
    (bres : List Doc)
    (hv : (vres.map (fun p => p.1.chunk_id)).Nodup)
    (hb : (bres.map (fun d => d.chunk_id)).Nodup) :
    (∀ c ∈ fuseCandidates vw bw vres bres,
      c.chunk_id ∈ vres.map (fun p => p.1.chunk_id) ∨
        c.chunk_id ∈ bres.map (fun d => d.chunk_id))
    ∧ (∀ cid : String,
        cid ∈ vres.map (fun p => p.1.chunk_id) ∨
          cid ∈ bres.map (fun d => d.chunk_id) →
        ∃ c ∈ fuseCandidates vw bw vres bres, c.chunk_id = cid)
    ∧ (∀ c ∈ fuseCandidates vw bw vres bres,
        c.combined_score = vw * c.vector_score + bw * c.bm25_score
        ∧ (∀ p ∈ vres, p.1.chunk_id = c.chunk_id →
            c.vector_score = 1 / (1 + p.2))
        ∧ (c.chunk_id ∉ vres.map (fun p => p.1.chunk_id) →
            c.vector_score = 0)
        ∧ (∀ pr ∈ enumFrom 0 bres, pr.2.chunk_id = c.chunk_id →
            c.bm25_score = 1 / ((pr.1 : ℚ) + 1))
        ∧ (c.chunk_id ∉ bres.map (fun d => d.chunk_id) →
            c.bm25_score = 0)) := by
  have hvkeys : ∀ k, k ∈ (buildVectorScored vres).map (fun p => p.1) ↔
      k ∈ vres.map (fun p => p.1.chunk_id) := fun k =>
    mem_keys_buildDict (fun p => p.1.chunk_id) (fun p => (p.1, 1 / (1 + p.2)))
      vres k
  have hbkeys : ∀ k, k ∈ (buildBm25Scored bres).map (fun p => p.1) ↔
      k ∈ bres.map (fun d => d.chunk_id) := by
    intro k
    have h1 := mem_keys_buildDict (fun p : Nat × Doc => p.2.chunk_id)
      (fun p => (p.2, 1 / ((p.1 : ℚ) + 1))) (enumFrom 0 bres) k
    rw [map_enumFrom (fun d => d.chunk_id) 0 bres] at h1
    exact h1
  refine ⟨?_, ?_, ?_⟩
  · intro c hc
    rcases (fuseCandidates_spec vw bw vres bres c hc).2.2.2 with h | h
    · exact Or.inl ((hvkeys _).mp h)
    · exact Or.inr ((hbkeys _).mp h)
  · intro cid hcid
    have hall : cid ∈ pySetOfList ((buildVectorScored vres).map (fun p => p.1)
        ++ (buildBm25Scored bres).map (fun p => p.1)) := by
      rw [mem_pySetOfList, List.mem_append]
      rcases hcid with h | h
      · exact Or.inl ((hvkeys cid).mpr h)
      · exact Or.inr ((hbkeys cid).mpr h)
    cases hv0 : dictGet? (buildVectorScored vres) cid with
    | some pv =>
      refine ⟨mkFusedChunk vw bw cid pv.1 pv.2
        (((dictGet? (buildBm25Scored bres) cid).map (fun p => p.2)).getD 0),
        ?_, rfl⟩
      unfold fuseCandidates
      dsimp only
      refine List.mem_filterMap.mpr ⟨cid, hall, ?_⟩
      rw [hv0]
    | none =>
      cases hb0 : dictGet? (buildBm25Scored bres) cid with
      | some pb =>
        refine ⟨mkFusedChunk vw bw cid pb.1 0 pb.2, ?_, rfl⟩
        unfold fuseCandidates
        dsimp only
        refine List.mem_filterMap.mpr ⟨cid, hall, ?_⟩
        rw [hv0, hb0]
      | none =>
        exfalso
        rcases hcid with h | h
        · exact (dictGet?_eq_none.mp hv0) ((hvkeys cid).mpr h)
        · exact (dictGet?_eq_none.mp hb0) ((hbkeys cid).mpr h)
  · intro c hc
    obtain ⟨hvs, hbs, hcomb, _⟩ := fuseCandidates_spec vw bw vres bres c hc
    refine ⟨hcomb, ?_, ?_, ?_, ?_⟩
    · intro p hp hpk
      rw [hvs]
      unfold buildVectorScored
      rw [dictGet?_buildDict]
      rw [@find?_key_unique (Doc × ℚ) (fun p => p.1.chunk_id) vres.reverse
        c.chunk_id
        (by rw [List.map_reverse]; exact List.nodup_reverse.mpr hv)
        p (List.mem_reverse.mpr hp) hpk]
      rfl
    · intro hnot
      rw [hvs, dictGet?_eq_none.mpr (fun hmem => hnot ((hvkeys _).mp hmem))]
      rfl
    · intro pr hpr hpk
      rw [hbs]
      unfold buildBm25Scored
      rw [dictGet?_buildDict]
      rw [@find?_key_unique (Nat × Doc) (fun p => p.2.chunk_id)
        (enumFrom 0 bres).reverse c.chunk_id
        (by rw [List.map_reverse, map_enumFrom (fun d => d.chunk_id) 0 bres]
            exact List.nodup_reverse.mpr hb)
        pr (List.mem_reverse.mpr hpr) hpk]
      rfl
    · intro hnot
      rw [hbs, dictGet?_eq_none.mpr (fun hmem => hnot ((hbkeys _).mp hmem))]
      rfl

/-- Claim C4: the similarity floor applies to `vector_score` only, so no
chunk with `vector_score < similarity_threshold` ever appears in a
`RetrievalResult` returned by `retrieve`; in particular, with a positive
threshold every surviving candidate id comes from the semantic result list
(a lexical-only candidate has `vector_score` 0 and is filtered out). -/
theorem threshold_invariant (vw bw : ℚ) (k : Nat) (th : ℚ) (query : String)
    (vres : List (Doc × ℚ)) (bres : List Doc) :
    (∀ c ∈ (retrieve vw bw k th query vres bres).chunks,
      th ≤ c.vector_score)
    ∧ (0 < th → ∀ c ∈ (retrieve vw bw k th query vres bres).chunks,
        c.chunk_id ∈ vres.map (fun p => p.1.chunk_id)) := by
  have hmem : ∀ c ∈ (retrieve vw bw k th query vres bres).chunks,
      th ≤ c.vector_score ∧ c ∈ fuseCandidates vw bw vres bres := by
    intro c hc
    unfold retrieve at hc
    dsimp only at hc
    have h1 := List.mem_of_mem_take hc
    have h2 := List.mem_filter.mp h1
    exact ⟨of_decide_eq_true h2.2, mem_pySortDescBy.mp h2.1⟩
  constructor
  · exact fun c hc => (hmem c hc).1
  · intro hth c hc
    obtain ⟨hle, hcf⟩ := hmem c hc
    by_contra hnot
    have hvs := (fuseCandidates_spec vw bw vres bres c hcf).1
    have hkeys := mem_keys_buildDict (fun p : Doc × ℚ => p.1.chunk_id)
      (fun p => (p.1, 1 / (1 + p.2))) vres c.chunk_id
    unfold buildVectorScored at hvs
    rw [dictGet?_eq_none.mpr (fun hm => hnot (hkeys.mp hm))] at hvs
    have hz : c.vector_score = 0 := hvs.trans rfl
    exact absurd (lt_of_lt_of_le hth (hz ▸ hle)) (lt_irrefl 0)

/-- Witness for C2 at one semantic hit (`c1`, distance 1/2) and one lexical
hit (`c2`, rank 0) with weights 0.6/0.4: the union contains `c2`, and the
fused `c1` candidate (`sim = 2/3`, `combined = 2/5`) satisfies the weighted
combination. -/
theorem fusion_correctness_witness :
    (∃ c ∈ fuseCandidates (6/10) (4/10)
        [(Doc.mk "c1" "" "" 0 0 "t1", 1/2)] [Doc.mk "c2" "" "" 0 0 "t2"],
      c.chunk_id = "c2")
    ∧ (RetrievedChunk.mk "c1" "" "" 0 0 "t1" (2/3) 0 (2/5)).combined_score =
        (6/10 : ℚ) *
          (RetrievedChunk.mk "c1" "" "" 0 0 "t1" (2/3) 0 (2/5)).vector_score +
        (4/10 : ℚ) *
          (RetrievedChunk.mk "c1" "" "" 0 0 "t1" (2/3) 0 (2/5)).bm25_score :=
  ⟨(fusion_correctness (6/10) (4/10)
      [(Doc.mk "c1" "" "" 0 0 "t1", 1/2)] [Doc.mk "c2" "" "" 0 0 "t2"]
      (by decide) (by decide)).2.1 "c2" (Or.inr (by decide)),
   ((fusion_correctness (6/10) (4/10)
      [(Doc.mk "c1" "" "" 0 0 "t1", 1/2)] [Doc.mk "c2" "" "" 0 0 "t2"]
      (by decide) (by decide)).2.2
      (RetrievedChunk.mk "c1" "" "" 0 0 "t1" (2/3) 0 (2/5))
      (by with_unfolding_all decide)).1⟩

/-- Witness for C4: with threshold 0.25 the surviving chunk `c1` has
`vector_score = 2/3 ≥ 0.25` and comes from the semantic list, while the
lexical-only `c2` was filtered out. -/
theorem threshold_invariant_witness :
    ((25/100 : ℚ) ≤
      (RetrievedChunk.mk "c1" "" "" 0 0 "t1" (2/3) 0 (2/5)).vector_score)
    ∧ (RetrievedChunk.mk "c1" "" "" 0 0 "t1" (2/3) 0 (2/5)).chunk_id ∈
        [(Doc.mk "c1" "" "" 0 0 "t1", (1/2 : ℚ))].map
          (fun p => p.1.chunk_id) :=
  ⟨(threshold_invariant (6/10) (4/10) 10 (25/100) "q"
      [(Doc.mk "c1" "" "" 0 0 "t1", 1/2)] [Doc.mk "c2" "" "" 0 0 "t2"]).1
      (RetrievedChunk.mk "c1" "" "" 0 0 "t1" (2/3) 0 (2/5))
      (by with_unfolding_all decide),
   (threshold_invariant (6/10) (4/10) 10 (25/100) "q"
      [(Doc.mk "c1" "" "" 0 0 "t1", 1/2)] [Doc.mk "c2" "" "" 0 0 "t2"]).2
      (by with_unfolding_all decide)
      (RetrievedChunk.mk "c1" "" "" 0 0 "t1" (2/3) 0 (2/5))
      (by with_unfolding_all decide)⟩
